import Mathlib

/-!
Shallow embedding of the Adherix adherence-detection engine.

Sources embedded here:
- src/src/models/medModel.js, src/src/models/logModel.js (eventModel part)
- src/src/controllers/medController.js  (logDose, the Adherence Recorder)
- src/src/utils/reaper.js               (runAutomatedReaper, the Sweeper)
- src/unnamed/part_007                  (eventLogger.js recordEvent)
- src/unnamed/part_008                  (analyticsService.js: calculateReliabilityIndex,
                                         getInventoryRunway)

Modelling conventions:
- Instants are integers counting minutes since an epoch (UTC).  A time zone is an
  offset in minutes; the local wall clock of a user at UTC instant t is t + tzOffset.
  Luxon day arithmetic (startOf day, endOf day, set hour/minute) is carried out on
  the local value.  DST transitions are not modelled.
- Mongoose documents become structures; collections become lists inside a DB record.
  Queries become list searches with decidable predicates.  createdAt (added by
  mongoose timestamps) is the instant of insertion, which for both writers is the
  same instant stored in takenAt.
- A mongoose transaction is all-or-nothing: the embedding of logDose returns either
  an error together with the unchanged DB (abortTransaction) or the fully committed
  DB (commitTransaction).
- Store failures that the JS code can encounter are injected through explicit
  parameters (eventInsertFails for Event.create inside recordEvent, failMeds for a
  per-medication transient error during a sweep).
- Fire-and-forget outputs of the sweep (queue jobs, socket emits) do not touch the
  modelled store and are omitted; the sweep writes only Log documents.
-/

namespace Adherix

/-- Dose outcome stored in a DoseLogEntry (logModel.js status enum). -/
inductive DoseStatus
  | taken
  | missed
  | skipped
deriving DecidableEq, Repr

/-- Classification stored in a DoseLogEntry (logModel.js adherenceStatus enum). -/
inductive AdhStatus
  | onTime
  | late
  | missed
deriving DecidableEq, Repr

/-- medModel.js medType enum: scheduled or prn (as-needed). -/
inductive MedType
  | scheduled
  | prn
deriving DecidableEq, Repr

/-- A timing string "HH:MM" from medModel.js timings, in parsed form. -/
structure Slot where
  h : Nat
  m : Nat
deriving DecidableEq, Repr

/-- The slice of userModel.js the engine reads: identity and the IANA zone,
modelled as a fixed offset in minutes. -/
structure User where
  id : Nat
  tzOffset : Int
deriving DecidableEq, Repr

/-- medModel.js medicationSchema (fields the engine reads and writes). -/
structure Medication where
  id : Nat
  user : Nat
  medType : MedType
  timings : List Slot
  totalQuantity : Int
  remainingQuantity : Int
  isActive : Bool
  isDeleted : Bool
deriving DecidableEq, Repr

/-- logModel.js logSchema.  takenAt is set by the writer; createdAt is the
mongoose timestamp of the insert (same instant for both writers here). -/
structure LogEntry where
  user : Nat
  medication : Nat
  status : DoseStatus
  scheduledTime : Slot
  delayMinutes : Int
  adherenceStatus : AdhStatus
  takenAt : Int
  createdAt : Int
deriving DecidableEq, Repr

/-- eventModel.js eventType enum. -/
inductive EventType
  | doseTaken
  | doseMissed
  | doseLate
  | inventoryLow
  | guardianAlertSent
  | medDeleted
deriving DecidableEq, Repr

/-- eventModel.js eventSchema (metadata payload is never read back by the engine
and is omitted). -/
structure Event where
  user : Nat
  medication : Nat
  eventType : EventType
  timestamp : Int
deriving DecidableEq, Repr

/-- The persistent store: the collections the engine touches. -/
structure DB where
  users : List User
  meds : List Medication
  logs : List LogEntry
  events : List Event
deriving DecidableEq, Repr

/-! ## Time helpers (luxon calls used by the code) -/

/-- Calendar day number of a local instant (minutes since epoch / 1440,
floor division). -/
def localDay (t : Int) : Int := t / 1440

/-- Local midnight below a local instant (luxon startOf day on the local clock). -/
def localDayStart (t : Int) : Int := t / 1440 * 1440

/-- UTC instant of local midnight for zone offset tz at UTC instant now:
DateTime.now().setZone(tz).startOf(day).toJSDate(). -/
def todayStartUtc (tz now : Int) : Int := localDayStart (now + tz) - tz

/-- now.set({hour, minute, second: 0}): the scheduled instant of slot s on the
local calendar day of localNow, as a local instant. -/
def slotInstant (localNow : Int) (s : Slot) : Int :=
  localDayStart localNow + (s.h : Int) * 60 + (s.m : Int)

/-! ## eventLogger.js -/

/-- recordEvent from eventLogger.js (src/unnamed/part_007).  Event.create runs in
a try/catch whose catch only logs: a failed insert is swallowed and never aborts
the caller.  insertFails injects that store failure. -/
def recordEvent (events : List Event) (uid medId : Nat) (ty : EventType) (now : Int)
    (insertFails : Bool) : List Event :=
  if insertFails then events else events ++ [⟨uid, medId, ty, now⟩]

/-! ## The Adherence Recorder: logDose (medController.js) -/

/-- Errors logDose can answer with inside its transaction. -/
inductive DoseError
  | duplicate
  | medNotFound
deriving DecidableEq, Repr

/-- The duplicate-submission query in logDose: a taken log for the same user,
medication and slot with takenAt inside the trailing 10-minute window. -/
def hasRecentTakenDuplicate (logs : List LogEntry) (uid medId : Nat) (s : Slot)
    (now : Int) : Bool :=
  logs.any fun l => decide (l.user = uid ∧ l.medication = medId ∧
    l.scheduledTime = s ∧ now - 10 ≤ l.takenAt ∧ l.status = DoseStatus.taken)

/-- The findOneAndUpdate filter of logDose: _id, user, isDeleted false (the
pre-find middleware of medModel.js adds the same isDeleted filter). -/
def findMedNotDeleted (meds : List Medication) (medId uid : Nat) : Option Medication :=
  meds.find? fun m => decide (m.id = medId ∧ m.user = uid ∧ m.isDeleted = false)

/-- Effect of findOneAndUpdate with $inc remainingQuantity -1 on the first
matching document. -/
def decrementFirst (medId uid : Nat) : List Medication → List Medication
  | [] => []
  | m :: ms =>
    if m.id = medId ∧ m.user = uid ∧ m.isDeleted = false then
      { m with remainingQuantity := m.remainingQuantity - 1 } :: ms
    else m :: decrementFirst medId uid ms

/-- Lateness classification of logDose: scheduled instant of the slot for today
on the actor-zone clock; delay over 30 minutes is late.  Skipped when the
reported status is an explicit miss. -/
def classify (tz now : Int) (s : Slot) (status : Option DoseStatus) : AdhStatus × Int :=
  let localNow := now + tz
  let sched := slotInstant localNow s
  let diff := localNow - sched
  if status ≠ some DoseStatus.missed ∧ 30 < diff then (AdhStatus.late, diff)
  else (AdhStatus.onTime, 0)

/-- The Log document logDose inserts (Log.create payload). -/
def mkRecorderEntry (uid medId : Nat) (s : Slot) (status : Option DoseStatus)
    (tz now : Int) : LogEntry :=
  let c := classify tz now s status
  { user := uid
    medication := medId
    status := status.getD DoseStatus.taken
    scheduledTime := s
    adherenceStatus := if status = some DoseStatus.missed then AdhStatus.missed else c.1
    delayMinutes := c.2
    takenAt := now
    createdAt := now }

/-- logDose from medController.js.  The whole body runs in one mongoose
transaction: an error answer leaves the store untouched, a success commits the
ledger insert, the inventory decrement of the taken path, and whichever audit
events recordEvent managed to insert.  eventInsertFails injects a store failure
inside every recordEvent call (which recordEvent swallows). -/
def logDose (db : DB) (uid : Nat) (tz : Int) (medId : Nat) (scheduledTime : Slot)
    (status : Option DoseStatus) (now : Int) (eventInsertFails : Bool) :
    Except DoseError (DB × LogEntry) :=
  let dup := hasRecentTakenDuplicate db.logs uid medId scheduledTime now
  if dup ∧ (status = some DoseStatus.taken ∨ status = none) then
    Except.error DoseError.duplicate
  else
    let entry := mkRecorderEntry uid medId scheduledTime status tz now
    if status = some DoseStatus.taken ∨ status = none then
      match findMedNotDeleted db.meds medId uid with
      | none => Except.error DoseError.medNotFound
      | some med =>
        let newQty := med.remainingQuantity - 1
        let adh := (classify tz now scheduledTime status).1
        let ev1 := recordEvent db.events uid medId
          (if adh = AdhStatus.late then EventType.doseLate else EventType.doseTaken)
          now eventInsertFails
        let ev2 := if newQty < 5 then
            recordEvent ev1 uid medId EventType.inventoryLow now eventInsertFails
          else ev1
        Except.ok ({ db with
          meds := decrementFirst medId uid db.meds
          logs := db.logs ++ [entry]
          events := ev2 }, entry)
    else if status = some DoseStatus.missed then
      Except.ok ({ db with
        logs := db.logs ++ [entry]
        events := recordEvent db.events uid medId EventType.doseMissed now
          eventInsertFails }, entry)
    else
      Except.ok ({ db with logs := db.logs ++ [entry] }, entry)

/-! ## The Missed-Dose Sweeper: runAutomatedReaper (reaper.js) -/

/-- Medication.populate(user): resolve the owner document. -/
def findUser (users : List User) (uid : Nat) : Option User :=
  users.find? fun u => decide (u.id = uid)

/-- The missed Log document the sweep inserts. -/
def mkMissedEntry (med : Medication) (s : Slot) (now : Int) : LogEntry :=
  { user := med.user
    medication := med.id
    status := DoseStatus.missed
    scheduledTime := s
    delayMinutes := 0
    adherenceStatus := AdhStatus.missed
    takenAt := now
    createdAt := now }

/-- The grace test of the sweep: now (owner zone) is strictly past the scheduled
instant for today plus the 2-hour window. -/
def slotDue (tz now : Int) (s : Slot) : Bool :=
  decide (slotInstant (now + tz) s + 120 < now + tz)

/-- Membership of an instant in the owner-zone window [startOf day, endOf day]
used by the existence query (endOf day truncated to whole minutes). -/
def inTodayWindow (tz now t : Int) : Bool :=
  decide (todayStartUtc tz now ≤ t ∧ t ≤ todayStartUtc tz now + 1439)

/-- The Log.findOne existence query of the sweep: same medication, same slot
string, createdAt inside the owner-zone current calendar day. -/
def hasEntryToday (logs : List LogEntry) (medId : Nat) (s : Slot) (tz now : Int) :
    Bool :=
  logs.any fun l =>
    decide (l.medication = medId ∧ l.scheduledTime = s) && inTodayWindow tz now l.createdAt

/-- One slot of one medication inside the sweep loop: skip while pending or in
grace, skip when an entry for this slot-instance exists, otherwise insert a
missed entry and bump the counter. -/
def reaperProcessSlot (med : Medication) (u : User) (now : Int)
    (st : Nat × List LogEntry) (s : Slot) : Nat × List LogEntry :=
  if slotDue u.tzOffset now s = false then st
  else if hasEntryToday st.2 med.id s u.tzOffset now = true then st
  else (st.1 + 1, st.2 ++ [mkMissedEntry med s now])

/-- One medication of the sweep: resolve the owner (skip when populate finds
none), then walk the timings. -/
def reaperProcessMed (users : List User) (now : Int)
    (st : Nat × List LogEntry) (med : Medication) : Nat × List LogEntry :=
  match findUser users med.user with
  | none => st
  | some u => med.timings.foldl (reaperProcessSlot med u now) st

/-- The Medication.find filter of the sweep: isDeleted false and medType
scheduled (the pre-find middleware adds the same isDeleted filter; isActive is
not part of the query). -/
def reaperMeds (db : DB) : List Medication :=
  db.meds.filter fun m => !m.isDeleted && decide (m.medType = MedType.scheduled)

/-- runAutomatedReaper from reaper.js on a pass with no store failure: returns
the missed count and the store with the synthesized entries appended. -/
def runAutomatedReaper (db : DB) (now : Int) : Nat × DB :=
  let r := (reaperMeds db).foldl (reaperProcessMed db.users now) (0, db.logs)
  (r.1, { db with logs := r.2 })

/-- The entries a pass appended (the store is append-only for the sweep). -/
def newLogsOf (db : DB) (now : Int) : List LogEntry :=
  (runAutomatedReaper db now).2.logs.drop db.logs.length

/-- Sweep with an injected transient store failure: processing a medication
whose id is in failMeds throws before any of its writes.  reaper.js has a single
try/catch around the whole pass whose catch rethrows, so the throw ends the pass;
writes already made are not part of any transaction and persist. -/
def reaperGoF (users : List User) (now : Int) (failMeds : List Nat) :
    List Medication → Nat × List LogEntry → Except Unit Nat × List LogEntry
  | [], st => (Except.ok st.1, st.2)
  | m :: ms, st =>
    if m.id ∈ failMeds then (Except.error (), st.2)
    else reaperGoF users now failMeds ms (reaperProcessMed users now st m)

/-- runAutomatedReaper with the failure injection of reaperGoF. -/
def runAutomatedReaperF (db : DB) (now : Int) (failMeds : List Nat) :
    Except Unit Nat × DB :=
  let r := reaperGoF db.users now failMeds (reaperMeds db) (0, db.logs)
  (r.1, { db with logs := r.2 })

/-! ## Analytics: calculateReliabilityIndex (analyticsService.js) -/

/-- The Log.find of one day of the walk: logs of the user with takenAt inside
[dayStart, dayStart + endOf day]. -/
def dayLogs (logs : List LogEntry) (uid : Nat) (dayStart : Int) : List LogEntry :=
  logs.filter fun l =>
    decide (l.user = uid ∧ dayStart ≤ l.takenAt ∧ l.takenAt ≤ dayStart + 1439)

/-- The while loop of calculateReliabilityIndex: stop on an empty day, stop on a
day with a missed entry, otherwise count the day and step one day back; the cap
check runs after the increment. -/
def reliabilityLoop (logs : List LogEntry) (uid : Nat) (dayStart : Int)
    (count : Nat) : Nat :=
  let daily := dayLogs logs uid dayStart
  if daily.isEmpty then count
  else if daily.any (fun l => decide (l.status = DoseStatus.missed)) then count
  else if 90 ≤ count + 1 then count + 1
  else reliabilityLoop logs uid (dayStart - 1440) (count + 1)
termination_by 90 - count
decreasing_by
  simp_wf
  omega

/-- calculateReliabilityIndex from analyticsService.js.  DateTime.now() carries
the ambient process zone, so ambientTz is the SERVER zone offset: the subject
timezone field is never consulted here (contrast reaper.js and logDose, which
call setZone on the owner zone). -/
def calculateReliabilityIndex (logs : List LogEntry) (uid : Nat)
    (ambientTz now : Int) : Nat :=
  reliabilityLoop logs uid (todayStartUtc ambientTz now) 0

/-- Reliability Index written from the words of spec section 4.3, for
comparison: walk back one day at a time from the given day start, stop on a day
with no entries or with a missed entry, otherwise count it, hard cap = fuel. -/
def streakFrom (logs : List LogEntry) (uid : Nat) (dayStart : Int) : Nat → Nat
  | 0 => 0
  | fuel + 1 =>
    let daily := dayLogs logs uid dayStart
    if daily.isEmpty then 0
    else if daily.any (fun l => decide (l.status = DoseStatus.missed)) then 0
    else 1 + streakFrom logs uid (dayStart - 1440) fuel

/-! ## Analytics: getInventoryRunway (analyticsService.js) -/

/-- A JS number that may be NaN. -/
inductive JsVal
  | num (n : Int)
  | nan
deriving DecidableEq, Repr

/-- medModel.js defines no currentInventory path, so the document access
med.currentInventory in getInventoryRunway evaluates to undefined. -/
def Medication.currentInventory (_ : Medication) : Option Int := none

/-- Math.floor(x / d) under JS semantics: undefined / d is NaN and
Math.floor NaN = NaN; on a number with d > 0 it is floor division. -/
def jsFloorDiv (x : Option Int) (d : Int) : JsVal :=
  match x with
  | none => JsVal.nan
  | some n => JsVal.num (n.fdiv d)

/-- JS ordering comparison: every comparison against NaN is false. -/
def jsLe (x : JsVal) (b : Int) : Bool :=
  match x with
  | JsVal.nan => false
  | JsVal.num n => decide (n ≤ b)

/-- One element of the getInventoryRunway answer. -/
structure RunwayReport where
  medicationId : Nat
  daysRemaining : JsVal
  status : String
deriving DecidableEq, Repr

/-- getInventoryRunway from analyticsService.js: active, non-deleted medications
of the user; daysRemaining = Math.floor(med.currentInventory / dailyDoses) when
there are slots, else 0; Critical at most 3, Low at most 7, else Healthy. -/
def getInventoryRunway (db : DB) (uid : Nat) : List RunwayReport :=
  (db.meds.filter fun m => decide (m.user = uid) && !m.isDeleted && m.isActive).map
    fun med =>
      let dailyDoses : Int := med.timings.length
      let daysRemaining : JsVal :=
        if 0 < dailyDoses then jsFloorDiv med.currentInventory dailyDoses
        else JsVal.num 0
      { medicationId := med.id
        daysRemaining := daysRemaining
        status :=
          if jsLe daysRemaining 3 then "Critical"
          else if jsLe daysRemaining 7 then "Low"
          else "Healthy" }

/-- Inventory Runway written from the words of spec section 4.3, for comparison:
floor(remainingQuantity / numberOfDailySlots), 0 without slots; Critical at most
3, Low at most 7, else Healthy. -/
def getInventoryRunwaySpec (db : DB) (uid : Nat) : List RunwayReport :=
  (db.meds.filter fun m => decide (m.user = uid) && !m.isDeleted && m.isActive).map
    fun med =>
      let dailyDoses : Int := med.timings.length
      let daysRemaining : Int :=
        if 0 < dailyDoses then med.remainingQuantity.fdiv dailyDoses else 0
      { medicationId := med.id
        daysRemaining := JsVal.num daysRemaining
        status :=
          if daysRemaining ≤ 3 then "Critical"
          else if daysRemaining ≤ 7 then "Low"
          else "Healthy" }

/-! ## Result extraction helpers (for stating concrete evaluations) -/

/-- The committed store of a logDose answer; the transaction leaves dflt (the
store as it was) on an error. -/
def exceptDB (r : Except DoseError (DB × LogEntry)) (dflt : DB) : DB :=
  match r with
  | Except.ok (db, _) => db
  | Except.error _ => dflt

/-- Whether a logDose answer is a success. -/
def isOk (r : Except DoseError (DB × LogEntry)) : Bool :=
  match r with
  | Except.ok _ => true
  | Except.error _ => false

/-- Whether a failure-injected sweep ended in the rethrown error. -/
def isErrF (r : Except Unit Nat × DB) : Bool :=
  match r.1 with
  | Except.error _ => true
  | Except.ok _ => false

/-- remainingQuantity of the first non-deleted medication matching (medId, uid),
0 when none is found. -/
def qtyOf (db : DB) (medId uid : Nat) : Int :=
  match findMedNotDeleted db.meds medId uid with
  | some m => m.remainingQuantity
  | none => 0

/-! ## Concrete fixtures used by counterexamples and witnesses -/

def slot8 : Slot := ⟨8, 0⟩

def slot14 : Slot := ⟨14, 0⟩

def slot20 : Slot := ⟨20, 0⟩

/-- A user in zone UTC (offset 0). -/
def userW : User := ⟨1, 0⟩

/-- 08:05 UTC on day 20000. -/
def tRec : Int := 20000 * 1440 + 485

/-- 11:40 UTC on day 20000: strictly past 08:00 plus the 2-hour grace window. -/
def tDue : Int := 20000 * 1440 + 700

/-- An active, non-deleted, scheduled medication with one 08:00 slot and stock 10. -/
def medRec : Medication := ⟨1, 1, MedType.scheduled, [slot8], 10, 10, true, false⟩

def dbRec : DB := ⟨[userW], [medRec], [], []⟩

/-- Store after a first taken report at 08:05. -/
def dbRec1 : DB :=
  exceptDB (logDose dbRec 1 0 1 slot8 (some DoseStatus.taken) tRec false) dbRec

/-- Store after a second taken report for the same slot 11 minutes later. -/
def dbRec2 : DB :=
  exceptDB (logDose dbRec1 1 0 1 slot8 (some DoseStatus.taken) (tRec + 11) false) dbRec1

/-- Same medication with remainingQuantity 0. -/
def medZero : Medication := ⟨1, 1, MedType.scheduled, [slot8], 10, 0, true, false⟩

def dbZero : DB := ⟨[userW], [medZero], [], []⟩

/-- A soft-deleted medication. -/
def medDel : Medication := ⟨1, 1, MedType.scheduled, [slot8], 10, 10, false, true⟩

def dbDel : DB := ⟨[userW], [medDel], [], []⟩

/-- An inactive (isActive false) but non-deleted scheduled medication. -/
def medInact : Medication := ⟨1, 1, MedType.scheduled, [slot8], 10, 10, false, false⟩

def dbInact : DB := ⟨[userW], [medInact], [], []⟩

/-- Two medications for the sweep-failure scenario. -/
def medTwoA : Medication := ⟨1, 1, MedType.scheduled, [slot8], 10, 10, true, false⟩

def medTwoB : Medication := ⟨2, 1, MedType.scheduled, [slot8], 10, 10, true, false⟩

def dbTwo : DB := ⟨[userW], [medTwoA, medTwoB], [], []⟩

/-- remainingQuantity 10 with three daily slots (the spec runway example). -/
def medThree : Medication :=
  ⟨1, 1, MedType.scheduled, [slot8, slot14, slot20], 10, 10, true, false⟩

def dbThree : DB := ⟨[userW], [medThree], [], []⟩

/-- A ledger entry written by the Recorder at 08:05 of day 20000. -/
def logRec : LogEntry := mkRecorderEntry 1 1 slot8 (some DoseStatus.taken) 0 tRec

/-- Store that already holds one resolved entry for (med 1, 08:00, day 20000). -/
def dbLogged : DB := ⟨[userW], [medRec], [logRec], []⟩

/-- A taken log at 01:40 UTC of day 20000: inside the UTC calendar day 20000 but
before local midnight of day 20000 in zone UTC-5 (offset -300). -/
def logT9 : LogEntry :=
  ⟨1, 1, DoseStatus.taken, slot8, 0, AdhStatus.onTime, 20000 * 1440 + 100, 20000 * 1440 + 100⟩

/-- 08:20 UTC on day 20000. -/
def t9 : Int := 20000 * 1440 + 500

/-! ## Basic lemmas about the time helpers and the existence query -/

lemma localDayStart_le (t : Int) : localDayStart t ≤ t ∧ t ≤ localDayStart t + 1439 := by
  unfold localDayStart
  omega

/-- The instant of the insert itself lies in the window its existence query
scans: a synthesized entry is found by the very query that allowed it. -/
lemma inTodayWindow_self (tz now : Int) : inTodayWindow tz now now = true := by
  have h := localDayStart_le (now + tz)
  simp only [inTodayWindow, todayStartUtc, decide_eq_true_eq]
  omega

lemma hasEntryToday_append (L X : List LogEntry) (medId : Nat) (s : Slot)
    (tz now : Int) :
    hasEntryToday (L ++ X) medId s tz now =
      (hasEntryToday L medId s tz now || hasEntryToday X medId s tz now) := by
  simp [hasEntryToday, List.any_append]

lemma hasEntryToday_mkMissed (med : Medication) (s : Slot) (tz now : Int) :
    hasEntryToday [mkMissedEntry med s now] med.id s tz now = true := by
  simp [hasEntryToday, mkMissedEntry, inTodayWindow_self]

/-! ## Shape, soundness and completeness of one sweep pass -/

/-- Slot loop of the sweep: the state is only ever extended by missed entries;
each appended entry comes from a due slot whose slot-instance had no entry yet;
after the loop every due slot of the medication has an entry. -/
lemma reaperSlots_spec (med : Medication) (u : User) (now : Int) (ts : List Slot)
    (c : Nat) (L : List LogEntry) :
    ∃ new, ts.foldl (reaperProcessSlot med u now) (c, L) = (c + new.length, L ++ new) ∧
      (∀ l ∈ new, ∃ s, s ∈ ts ∧ l = mkMissedEntry med s now ∧
        slotDue u.tzOffset now s = true ∧
        hasEntryToday L med.id s u.tzOffset now = false) ∧
      (∀ s ∈ ts, slotDue u.tzOffset now s = true →
        hasEntryToday (L ++ new) med.id s u.tzOffset now = true) := by
  induction ts generalizing c L with
  | nil =>
    refine ⟨[], by simp, by simp, by simp⟩
  | cons s0 rest ih =>
    by_cases h1 : slotDue u.tzOffset now s0 = false
    · have hF : reaperProcessSlot med u now (c, L) s0 = (c, L) := by
        simp [reaperProcessSlot, h1]
      obtain ⟨new, hfold, hsound, hcomp⟩ := ih c L
      refine ⟨new, ?_, ?_, ?_⟩
      · simpa [List.foldl_cons, hF] using hfold
      · intro l hl
        obtain ⟨s, hs, rest'⟩ := hsound l hl
        exact ⟨s, List.mem_cons_of_mem _ hs, rest'⟩
      · intro s hs hdue
        rcases List.mem_cons.mp hs with rfl | hs
        · rw [h1] at hdue; exact absurd hdue (by simp)
        · exact hcomp s hs hdue
    · have h1' : slotDue u.tzOffset now s0 = true := by
        revert h1; cases slotDue u.tzOffset now s0 <;> simp
      by_cases h2 : hasEntryToday L med.id s0 u.tzOffset now = true
      · have hF : reaperProcessSlot med u now (c, L) s0 = (c, L) := by
          simp [reaperProcessSlot, h1', h2]
        obtain ⟨new, hfold, hsound, hcomp⟩ := ih c L
        refine ⟨new, ?_, ?_, ?_⟩
        · simpa [List.foldl_cons, hF] using hfold
        · intro l hl
          obtain ⟨s, hs, rest'⟩ := hsound l hl
          exact ⟨s, List.mem_cons_of_mem _ hs, rest'⟩
        · intro s hs hdue
          rcases List.mem_cons.mp hs with rfl | hs
          · rw [hasEntryToday_append, h2]; simp
          · exact hcomp s hs hdue
      · have h2' : hasEntryToday L med.id s0 u.tzOffset now = false := by
          revert h2; cases hasEntryToday L med.id s0 u.tzOffset now <;> simp
        have hF : reaperProcessSlot med u now (c, L) s0 =
            (c + 1, L ++ [mkMissedEntry med s0 now]) := by
          simp [reaperProcessSlot, h1', h2']
        obtain ⟨new, hfold, hsound, hcomp⟩ := ih (c + 1) (L ++ [mkMissedEntry med s0 now])
        refine ⟨mkMissedEntry med s0 now :: new, ?_, ?_, ?_⟩
        · rw [List.foldl_cons, hF, hfold]
          simp only [Prod.mk.injEq, List.length_cons, List.append_assoc,
            List.singleton_append]
          exact ⟨by omega, trivial⟩
        · intro l hl
          rcases List.mem_cons.mp hl with rfl | hl
          · exact ⟨s0, List.mem_cons_self _ _, rfl, h1', h2'⟩
          · obtain ⟨s, hs, heq, hdue, hnone⟩ := hsound l hl
            rw [hasEntryToday_append] at hnone
            refine ⟨s, List.mem_cons_of_mem _ hs, heq, hdue, ?_⟩
            cases hL : hasEntryToday L med.id s u.tzOffset now
            · rfl
            · rw [hL] at hnone; simp at hnone
        · intro s hs hdue
          rcases List.mem_cons.mp hs with rfl | hs
          · rw [← List.singleton_append, ← List.append_assoc, hasEntryToday_append,
              hasEntryToday_append, hasEntryToday_mkMissed]
            simp
          · have := hcomp s hs hdue
            rwa [List.append_assoc, List.singleton_append] at this


/-- Medication step of the sweep: owner resolution then the slot loop. -/
lemma reaperMed_spec (users : List User) (now : Int) (med : Medication) (c : Nat)
    (L : List LogEntry) :
    ∃ new, reaperProcessMed users now (c, L) med = (c + new.length, L ++ new) ∧
      (∀ l ∈ new, ∃ u, findUser users med.user = some u ∧ ∃ s, s ∈ med.timings ∧
        l = mkMissedEntry med s now ∧ slotDue u.tzOffset now s = true ∧
        hasEntryToday L med.id s u.tzOffset now = false) ∧
      (∀ u, findUser users med.user = some u → ∀ s ∈ med.timings,
        slotDue u.tzOffset now s = true →
        hasEntryToday (L ++ new) med.id s u.tzOffset now = true) := by
  unfold reaperProcessMed
  cases hfu : findUser users med.user with
  | none =>
    refine ⟨[], by simp, by simp, ?_⟩
    intro u hu
    exact absurd hu (by simp)
  | some u =>
    obtain ⟨new, hfold, hsound, hcomp⟩ := reaperSlots_spec med u now med.timings c L
    refine ⟨new, hfold, ?_, ?_⟩
    · intro l hl
      obtain ⟨s, hs, rest'⟩ := hsound l hl
      exact ⟨u, rfl, s, hs, rest'⟩
    · intro u' hu'
      injection hu' with h
      subst h
      exact hcomp

/-- Whole-pass fold over the filtered medications. -/
lemma reaperFold_spec (users : List User) (now : Int) (ms : List Medication)
    (c : Nat) (L : List LogEntry) :
    ∃ new, ms.foldl (reaperProcessMed users now) (c, L) = (c + new.length, L ++ new) ∧
      (∀ l ∈ new, ∃ m, m ∈ ms ∧ ∃ u, findUser users m.user = some u ∧ ∃ s, s ∈ m.timings ∧
        l = mkMissedEntry m s now ∧ slotDue u.tzOffset now s = true ∧
        hasEntryToday L m.id s u.tzOffset now = false) ∧
      (∀ m ∈ ms, ∀ u, findUser users m.user = some u → ∀ s ∈ m.timings,
        slotDue u.tzOffset now s = true →
        hasEntryToday (L ++ new) m.id s u.tzOffset now = true) := by
  induction ms generalizing c L with
  | nil =>
    refine ⟨[], by simp, by simp, by simp⟩
  | cons m0 rest ih =>
    obtain ⟨new0, hF, hsound0, hcomp0⟩ := reaperMed_spec users now m0 c L
    obtain ⟨new1, hfold, hsound1, hcomp1⟩ := ih (c + new0.length) (L ++ new0)
    refine ⟨new0 ++ new1, ?_, ?_, ?_⟩
    · rw [List.foldl_cons, hF, hfold]
      simp only [Prod.mk.injEq, List.length_append, List.append_assoc]
      exact ⟨by omega, trivial⟩
    · intro l hl
      rcases List.mem_append.mp hl with hl | hl
      · obtain ⟨u, hu, s, hs, rest'⟩ := hsound0 l hl
        exact ⟨m0, List.mem_cons_self _ _, u, hu, s, hs, rest'⟩
      · obtain ⟨m, hm, u, hu, s, hs, heq, hdue, hnone⟩ := hsound1 l hl
        rw [hasEntryToday_append] at hnone
        refine ⟨m, List.mem_cons_of_mem _ hm, u, hu, s, hs, heq, hdue, ?_⟩
        cases hL : hasEntryToday L m.id s u.tzOffset now
        · rfl
        · rw [hL] at hnone; simp at hnone
    · intro m hm u hu s hs hdue
      rcases List.mem_cons.mp hm with rfl | hm
      · have := hcomp0 u hu s hs hdue
        rw [← List.append_assoc, hasEntryToday_append, this]
        simp
      · have := hcomp1 m hm u hu s hs hdue
        rwa [List.append_assoc] at this

/-- One sweep pass: the store changes only by appending the synthesized missed
entries; the count returned is their number; every synthesized entry comes from
a non-deleted scheduled medication with a resolvable owner, a slot of that
medication past its grace window whose slot-instance had no entry; and after the
pass every such due slot has an entry. -/
lemma runReaper_spec (db : DB) (now : Int) :
    (runAutomatedReaper db now).2.users = db.users ∧
    (runAutomatedReaper db now).2.meds = db.meds ∧
    (runAutomatedReaper db now).2.events = db.events ∧
    (runAutomatedReaper db now).2.logs = db.logs ++ newLogsOf db now ∧
    (runAutomatedReaper db now).1 = (newLogsOf db now).length ∧
    (∀ l ∈ newLogsOf db now, ∃ m, m ∈ reaperMeds db ∧
      ∃ u, findUser db.users m.user = some u ∧ ∃ s, s ∈ m.timings ∧
      l = mkMissedEntry m s now ∧ slotDue u.tzOffset now s = true ∧
      hasEntryToday db.logs m.id s u.tzOffset now = false) ∧
    (∀ m ∈ reaperMeds db, ∀ u, findUser db.users m.user = some u →
      ∀ s ∈ m.timings, slotDue u.tzOffset now s = true →
      hasEntryToday ((runAutomatedReaper db now).2.logs) m.id s u.tzOffset now = true) := by
  obtain ⟨new, hfold, hsound, hcomp⟩ :=
    reaperFold_spec db.users now (reaperMeds db) 0 db.logs
  have hnew : newLogsOf db now = new := by
    unfold newLogsOf runAutomatedReaper
    rw [hfold]
    exact List.drop_left db.logs new
  have hrun : runAutomatedReaper db now = (new.length, { db with logs := db.logs ++ new }) := by
    unfold runAutomatedReaper
    rw [hfold]
    simp
  rw [hrun, hnew]
  exact ⟨rfl, rfl, rfl, rfl, rfl, hsound, hcomp⟩

/-- A pass over a store in which every due slot of every swept medication
already has an entry for today creates nothing and changes nothing. -/
lemma runReaper_noCreate (db : DB) (now : Int)
    (h : ∀ m ∈ reaperMeds db, ∀ u, findUser db.users m.user = some u →
      ∀ s ∈ m.timings, slotDue u.tzOffset now s = true →
      hasEntryToday db.logs m.id s u.tzOffset now = true) :
    runAutomatedReaper db now = (0, db) := by
  obtain ⟨new, hfold, hsound, hcomp⟩ :=
    reaperFold_spec db.users now (reaperMeds db) 0 db.logs
  have hnil : new = [] := by
    rcases new with _ | ⟨l, rest⟩
    · rfl
    · exfalso
      obtain ⟨m, hm, u, hu, s, hs, heq, hdue, hnone⟩ := hsound l (List.mem_cons_self _ _)
      rw [h m hm u hu s hs hdue] at hnone
      exact absurd hnone (by simp)
  subst hnil
  unfold runAutomatedReaper
  rw [hfold]
  simp

/-- C6: a sweep pass is idempotent.  For any store, running runAutomatedReaper
a second time at the same instant with no intervening Recorder activity returns
a missed count of 0 and performs no writes: the existence check finds the
entries the first pass synthesized. -/
theorem reaper_second_pass_is_noop (db : DB) (now : Int) :
    runAutomatedReaper ((runAutomatedReaper db now).2) now =
      (0, (runAutomatedReaper db now).2) := by
  obtain ⟨hus, hms, hev, hlogs, hcount, hsound, hcomp⟩ := runReaper_spec db now
  apply runReaper_noCreate
  intro m hm u hu s hs hdue
  have hm' : m ∈ reaperMeds db := by
    unfold reaperMeds at hm ⊢
    rwa [hms] at hm
  have hu' : findUser db.users m.user = some u := by rwa [hus] at hu
  exact hcomp m hm' u hu' s hs hdue

/-- C10: a sweep pass stamps every entry it synthesizes with the instant of the
pass itself (createdAt = takenAt = now), so the entries of any strictly earlier
calendar day (in any fixed zone offset) are exactly those that were already in
the ledger: an unresolved slot-instance of an earlier day is never synthesized
as missed by a later pass. -/
theorem reaper_never_backfills_earlier_days (db : DB) (now tz d : Int)
    (hd : d < localDay (now + tz)) :
    ((runAutomatedReaper db now).2.logs.filter
        (fun l => decide (localDay (l.createdAt + tz) = d))) =
      db.logs.filter (fun l => decide (localDay (l.createdAt + tz) = d)) ∧
    (newLogsOf db now).all
        (fun l => decide (l.createdAt = now ∧ l.takenAt = now)) = true := by
  obtain ⟨hus, hms, hev, hlogs, hcount, hsound, hcomp⟩ := runReaper_spec db now
  have hstamp : ∀ l ∈ newLogsOf db now, l.createdAt = now ∧ l.takenAt = now := by
    intro l hl
    obtain ⟨m, hm, u, hu, s, hs, heq, hdue, hnone⟩ := hsound l hl
    rw [heq]
    exact ⟨rfl, rfl⟩
  constructor
  · rw [hlogs, List.filter_append]
    have hnil : (newLogsOf db now).filter
        (fun l => decide (localDay (l.createdAt + tz) = d)) = [] := by
      rw [List.filter_eq_nil_iff]
      intro l hl
      have hc := (hstamp l hl).1
      simp only [decide_eq_true_eq, hc]
      omega
    rw [hnil, List.append_nil]
  · rw [List.all_eq_true]
    intro l hl
    have := hstamp l hl
    simp only [decide_eq_true_eq]
    exact this

/-- Witness for C10: the preservation of an earlier day applied at a concrete
store, with day 19999 strictly before the pass day 20000. -/
theorem reaper_never_backfills_earlier_days_witness :
    (19999 : Int) < localDay (tDue + 0) ∧
    (((runAutomatedReaper dbRec tDue).2.logs.filter
        (fun l => decide (localDay (l.createdAt + 0) = 19999))) =
      dbRec.logs.filter (fun l => decide (localDay (l.createdAt + 0) = 19999)) ∧
    (newLogsOf dbRec tDue).all
        (fun l => decide (l.createdAt = tDue ∧ l.takenAt = tDue)) = true) :=
  ⟨by decide, reaper_never_backfills_earlier_days dbRec tDue 0 19999 (by decide)⟩

/-! ## Shape lemmas for the Recorder -/

/-- Successful taken path of logDose: with no duplicate in the 10-minute window
and a non-deleted medication found, the transaction commits the ledger entry,
the unconditional decrement, and whatever audit events survived recordEvent. -/
lemma logDose_taken_ok (db : DB) (uid : Nat) (tz : Int) (medId : Nat) (s : Slot)
    (now : Int) (evF : Bool) (med : Medication)
    (hdup : hasRecentTakenDuplicate db.logs uid medId s now = false)
    (hmed : findMedNotDeleted db.meds medId uid = some med) :
    logDose db uid tz medId s (some DoseStatus.taken) now evF =
      Except.ok
        ({ db with
            meds := decrementFirst medId uid db.meds
            logs := db.logs ++ [mkRecorderEntry uid medId s (some DoseStatus.taken) tz now]
            events :=
              if med.remainingQuantity - 1 < 5 then
                recordEvent
                  (recordEvent db.events uid medId
                    (if (classify tz now s (some DoseStatus.taken)).1 = AdhStatus.late
                      then EventType.doseLate else EventType.doseTaken) now evF)
                  uid medId EventType.inventoryLow now evF
              else
                recordEvent db.events uid medId
                  (if (classify tz now s (some DoseStatus.taken)).1 = AdhStatus.late
                    then EventType.doseLate else EventType.doseTaken) now evF },
          mkRecorderEntry uid medId s (some DoseStatus.taken) tz now) := by
  unfold logDose
  rw [hdup, hmed]
  simp

/-- Taken path of logDose against a medication the transaction cannot find
non-deleted: the whole unit aborts with the state error. -/
lemma logDose_taken_notFound (db : DB) (uid : Nat) (tz : Int) (medId : Nat)
    (s : Slot) (now : Int) (evF : Bool)
    (hdup : hasRecentTakenDuplicate db.logs uid medId s now = false)
    (hmed : findMedNotDeleted db.meds medId uid = none) :
    logDose db uid tz medId s (some DoseStatus.taken) now evF =
      Except.error DoseError.medNotFound := by
  unfold logDose
  rw [hdup, hmed]
  simp

/-- Missed path of logDose: no duplicate guard applies, no medication lookup
happens, the entry and (when the insert does not fail) the audit event commit. -/
lemma logDose_missed_ok (db : DB) (uid : Nat) (tz : Int) (medId : Nat) (s : Slot)
    (now : Int) (evF : Bool) :
    logDose db uid tz medId s (some DoseStatus.missed) now evF =
      Except.ok
        ({ db with
            logs := db.logs ++ [mkRecorderEntry uid medId s (some DoseStatus.missed) tz now]
            events := recordEvent db.events uid medId EventType.doseMissed now evF },
          mkRecorderEntry uid medId s (some DoseStatus.missed) tz now) := by
  unfold logDose
  simp

/-- Skipped path of logDose: no duplicate guard, no medication lookup, no audit
event; only the ledger entry commits. -/
lemma logDose_skipped_ok (db : DB) (uid : Nat) (tz : Int) (medId : Nat) (s : Slot)
    (now : Int) (evF : Bool) :
    logDose db uid tz medId s (some DoseStatus.skipped) now evF =
      Except.ok
        ({ db with
            logs := db.logs ++ [mkRecorderEntry uid medId s (some DoseStatus.skipped) tz now] },
          mkRecorderEntry uid medId s (some DoseStatus.skipped) tz now) := by
  unfold logDose
  simp

/-- The decrement keeps the first (medId, uid) match in place, one unit lower. -/
lemma findMedNotDeleted_decrementFirst (meds : List Medication) (medId uid : Nat)
    (med : Medication) (h : findMedNotDeleted meds medId uid = some med) :
    findMedNotDeleted (decrementFirst medId uid meds) medId uid =
      some { med with remainingQuantity := med.remainingQuantity - 1 } := by
  induction meds with
  | nil => simp [findMedNotDeleted] at h
  | cons m ms ih =>
    by_cases hp : m.id = medId ∧ m.user = uid ∧ m.isDeleted = false
    · have hfind : findMedNotDeleted (m :: ms) medId uid = some m := by
        unfold findMedNotDeleted
        exact List.find?_cons_of_pos _ (by simpa using hp)
      rw [hfind] at h
      injection h with h
      subst h
      unfold decrementFirst
      rw [if_pos hp]
      unfold findMedNotDeleted
      exact List.find?_cons_of_pos _ (by simp [hp])
    · have hfind : findMedNotDeleted (m :: ms) medId uid = findMedNotDeleted ms medId uid := by
        unfold findMedNotDeleted
        exact List.find?_cons_of_neg _ (by simpa using hp)
      rw [hfind] at h
      unfold decrementFirst
      rw [if_neg hp]
      unfold findMedNotDeleted at ih ⊢
      rw [List.find?_cons_of_neg _ (by simpa using hp)]
      exact ih h

/-! ## Claim C1 -/

/-- C1 (amended): per-(medication, slot, calendar day) uniqueness is enforced by
the Sweeper alone.  First part: when an entry for (medication, slot) already
exists inside the owner-zone current day, a sweep pass synthesizes no further
entry for that pair (its existence check sees it).  Second part: the Recorder
checks only for a taken log in the trailing 10-minute window, so even when an
entry for the same (medication, slot) is already in the ledger, a taken report
with no such recent duplicate succeeds and appends a second entry. -/
theorem uniqueness_enforced_by_sweeper_only :
    (∀ (db : DB) (now : Int) (m : Medication) (s : Slot) (u : User),
      (db.meds.map Medication.id).Nodup → m ∈ db.meds →
      findUser db.users m.user = some u →
      hasEntryToday db.logs m.id s u.tzOffset now = true →
      (newLogsOf db now).filter
        (fun l => decide (l.medication = m.id ∧ l.scheduledTime = s)) = []) ∧
    (∀ (db : DB) (uid : Nat) (tz : Int) (medId : Nat) (s : Slot) (now : Int)
      (evF : Bool) (med : Medication) (l : LogEntry),
      l ∈ db.logs → l.medication = medId → l.scheduledTime = s →
      hasRecentTakenDuplicate db.logs uid medId s now = false →
      findMedNotDeleted db.meds medId uid = some med →
      isOk (logDose db uid tz medId s (some DoseStatus.taken) now evF) = true ∧
      (exceptDB (logDose db uid tz medId s (some DoseStatus.taken) now evF) db).logs =
        db.logs ++ [mkRecorderEntry uid medId s (some DoseStatus.taken) tz now]) := by
  constructor
  · intro db now m s u hnodup hm hu hentry
    obtain ⟨hus, hms, hev, hlogs, hcount, hsound, hcomp⟩ := runReaper_spec db now
    rw [List.filter_eq_nil_iff]
    intro l hl hpred
    obtain ⟨hlmed, hlslot⟩ := of_decide_eq_true hpred
    obtain ⟨m', hm', u', hu', s', hs', heq, hdue, hnone⟩ := hsound l hl
    have hmm : m' = m := by
      have hm'mem : m' ∈ db.meds := (List.mem_filter.mp hm').1
      have hid : m'.id = m.id := by rw [← hlmed, heq]; rfl
      exact List.inj_on_of_nodup_map hnodup hm'mem hm hid
    subst hmm
    have hss : s' = s := by rw [← hlslot, heq]; rfl
    subst hss
    rw [hu] at hu'
    injection hu' with hu'
    subst hu'
    rw [hentry] at hnone
    exact absurd hnone (by simp)
  · intro db uid tz medId s now evF med l hl hlmed hlslot hdup hmed
    rw [logDose_taken_ok db uid tz medId s now evF med hdup hmed]
    exact ⟨rfl, rfl⟩

/-- C1 counterexample: two Recorder calls for the same (medication, slot) 11
minutes apart, both on calendar day 20000, both succeed and leave TWO ledger
entries for (medication 1, slot 08:00, day 20000), so at most one entry per
(medication, slot, calendar day) does not hold across sequences of Recorder
calls. -/
theorem two_recorder_entries_same_slot_day :
    (dbRec2.logs.filter
      (fun l => decide (l.medication = 1 ∧ l.scheduledTime = slot8 ∧
        localDay l.createdAt = 20000))).length = 2 := by decide

/-- Witness for C1: both parts applied at concrete stores. -/
theorem uniqueness_enforced_by_sweeper_only_witness :
    ((dbLogged.meds.map Medication.id).Nodup ∧ medRec ∈ dbLogged.meds ∧
      findUser dbLogged.users medRec.user = some userW ∧
      hasEntryToday dbLogged.logs medRec.id slot8 userW.tzOffset tDue = true ∧
      (newLogsOf dbLogged tDue).filter
        (fun l => decide (l.medication = medRec.id ∧ l.scheduledTime = slot8)) = []) ∧
    (logRec ∈ dbLogged.logs ∧
      hasRecentTakenDuplicate dbLogged.logs 1 1 slot8 tDue = false ∧
      findMedNotDeleted dbLogged.meds 1 1 = some medRec ∧
      isOk (logDose dbLogged 1 0 1 slot8 (some DoseStatus.taken) tDue false) = true ∧
      (exceptDB (logDose dbLogged 1 0 1 slot8 (some DoseStatus.taken) tDue false)
          dbLogged).logs =
        dbLogged.logs ++ [mkRecorderEntry 1 1 slot8 (some DoseStatus.taken) 0 tDue]) := by
  have h2 := uniqueness_enforced_by_sweeper_only.2 dbLogged 1 0 1 slot8 tDue false
    medRec logRec (by decide) (by decide) (by decide) (by decide) (by decide)
  refine ⟨⟨by decide, by decide, by decide, by decide, ?_⟩,
    by decide, by decide, by decide, h2.1, h2.2⟩
  exact uniqueness_enforced_by_sweeper_only.1 dbLogged tDue medRec slot8 userW
    (by decide) (by decide) (by decide) (by decide)

/-! ## Claim C2 -/

/-- C2 (amended): inside the logDose transaction the ledger write and the
inventory decrement commit together, and audit events that insert successfully
join the same commit; but recordEvent swallows a failed audit insert, so with
every Event.create failing the operation still succeeds and commits the ledger
entry and the decrement with the audit trail unchanged; with no failure the
commit carries one audit event (two when the new stock is below 5). -/
theorem ledger_and_inventory_commit_audit_swallowed (db : DB) (uid : Nat)
    (tz : Int) (medId : Nat) (s : Slot) (now : Int) (med : Medication)
    (hdup : hasRecentTakenDuplicate db.logs uid medId s now = false)
    (hmed : findMedNotDeleted db.meds medId uid = some med) :
    isOk (logDose db uid tz medId s (some DoseStatus.taken) now true) = true ∧
    (exceptDB (logDose db uid tz medId s (some DoseStatus.taken) now true) db).events =
      db.events ∧
    (exceptDB (logDose db uid tz medId s (some DoseStatus.taken) now true) db).logs =
      db.logs ++ [mkRecorderEntry uid medId s (some DoseStatus.taken) tz now] ∧
    (exceptDB (logDose db uid tz medId s (some DoseStatus.taken) now true) db).meds =
      decrementFirst medId uid db.meds ∧
    isOk (logDose db uid tz medId s (some DoseStatus.taken) now false) = true ∧
    (exceptDB (logDose db uid tz medId s (some DoseStatus.taken) now false) db).events.length =
      db.events.length + (if med.remainingQuantity - 1 < 5 then 2 else 1) := by
  rw [logDose_taken_ok db uid tz medId s now true med hdup hmed,
    logDose_taken_ok db uid tz medId s now false med hdup hmed]
  refine ⟨rfl, ?_, rfl, rfl, rfl, ?_⟩
  · simp [exceptDB, recordEvent]
  · by_cases hq : med.remainingQuantity - 1 < 5 <;>
      simp [exceptDB, recordEvent, hq]

/-- C2 counterexample: with the audit insert failing, logDose still answers
success and commits the ledger entry and the decrement while no audit event is
recorded, refuting commit-or-roll-back-together across the audit events. -/
theorem audit_insert_failure_still_commits :
    isOk (logDose dbRec 1 0 1 slot8 (some DoseStatus.taken) tRec true) = true ∧
    (exceptDB (logDose dbRec 1 0 1 slot8 (some DoseStatus.taken) tRec true) dbRec).events = [] ∧
    (exceptDB (logDose dbRec 1 0 1 slot8 (some DoseStatus.taken) tRec true) dbRec).logs.length = 1 ∧
    qtyOf (exceptDB (logDose dbRec 1 0 1 slot8 (some DoseStatus.taken) tRec true) dbRec) 1 1 = 9 := by
  decide

/-- Witness for C2 at the concrete store. -/
theorem ledger_and_inventory_commit_audit_swallowed_witness :
    (hasRecentTakenDuplicate dbRec.logs 1 1 slot8 tRec = false ∧
      findMedNotDeleted dbRec.meds 1 1 = some medRec) ∧
    (isOk (logDose dbRec 1 0 1 slot8 (some DoseStatus.taken) tRec true) = true ∧
      (exceptDB (logDose dbRec 1 0 1 slot8 (some DoseStatus.taken) tRec true) dbRec).events =
        dbRec.events ∧
      (exceptDB (logDose dbRec 1 0 1 slot8 (some DoseStatus.taken) tRec true) dbRec).logs =
        dbRec.logs ++ [mkRecorderEntry 1 1 slot8 (some DoseStatus.taken) 0 tRec] ∧
      (exceptDB (logDose dbRec 1 0 1 slot8 (some DoseStatus.taken) tRec true) dbRec).meds =
        decrementFirst 1 1 dbRec.meds ∧
      isOk (logDose dbRec 1 0 1 slot8 (some DoseStatus.taken) tRec false) = true ∧
      (exceptDB (logDose dbRec 1 0 1 slot8 (some DoseStatus.taken) tRec false) dbRec).events.length =
        dbRec.events.length + (if medRec.remainingQuantity - 1 < 5 then 2 else 1)) :=
  ⟨⟨by decide, by decide⟩,
    ledger_and_inventory_commit_audit_swallowed dbRec 1 0 1 slot8 tRec medRec
      (by decide) (by decide)⟩

/-! ## Claim C3 -/

/-- C3 (amended): the Recorder applies the taken-dose decrement unconditionally:
whenever the medication is found non-deleted and the duplicate guard does not
fire, the operation succeeds and stores remainingQuantity - 1, with no lower
bound, so remainingQuantity can become negative. -/
theorem recorder_decrements_without_floor (db : DB) (uid : Nat) (tz : Int)
    (medId : Nat) (s : Slot) (now : Int) (evF : Bool) (med : Medication)
    (hdup : hasRecentTakenDuplicate db.logs uid medId s now = false)
    (hmed : findMedNotDeleted db.meds medId uid = some med) :
    isOk (logDose db uid tz medId s (some DoseStatus.taken) now evF) = true ∧
    findMedNotDeleted
        (exceptDB (logDose db uid tz medId s (some DoseStatus.taken) now evF) db).meds
        medId uid =
      some { med with remainingQuantity := med.remainingQuantity - 1 } := by
  rw [logDose_taken_ok db uid tz medId s now evF med hdup hmed]
  exact ⟨rfl, findMedNotDeleted_decrementFirst db.meds medId uid med hmed⟩

/-- C3 counterexample: a taken report against a medication with
remainingQuantity 0 succeeds and stores -1: the Recorder does not refuse the
decrement that takes the stock below zero. -/
theorem stock_goes_negative :
    isOk (logDose dbZero 1 0 1 slot8 (some DoseStatus.taken) tRec false) = true ∧
    qtyOf (exceptDB (logDose dbZero 1 0 1 slot8 (some DoseStatus.taken) tRec false)
      dbZero) 1 1 = -1 := by
  decide

/-- Witness for C3 at the concrete store. -/
theorem recorder_decrements_without_floor_witness :
    (hasRecentTakenDuplicate dbRec.logs 1 1 slot8 tRec = false ∧
      findMedNotDeleted dbRec.meds 1 1 = some medRec) ∧
    (isOk (logDose dbRec 1 0 1 slot8 (some DoseStatus.taken) tRec false) = true ∧
      findMedNotDeleted
          (exceptDB (logDose dbRec 1 0 1 slot8 (some DoseStatus.taken) tRec false) dbRec).meds
          1 1 =
        some { medRec with remainingQuantity := medRec.remainingQuantity - 1 }) :=
  ⟨⟨by decide, by decide⟩,
    recorder_decrements_without_floor dbRec 1 0 1 slot8 tRec false medRec
      (by decide) (by decide)⟩

/-! ## Claim C4 -/

/-- C4 (amended): only the taken path checks medication state.  A taken report
against a medication that cannot be found non-deleted (not found or soft
deleted) aborts with the state error and, the transaction having rolled back,
leaves the store untouched; missed and skipped reports commit a ledger entry
with no medication lookup at all; and a found medication that is merely
inactive (isActive false) does not make the taken path fail. -/
theorem state_error_only_on_taken_path :
    (∀ (db : DB) (uid : Nat) (tz : Int) (medId : Nat) (s : Slot) (now : Int) (evF : Bool),
      hasRecentTakenDuplicate db.logs uid medId s now = false →
      findMedNotDeleted db.meds medId uid = none →
      logDose db uid tz medId s (some DoseStatus.taken) now evF =
        Except.error DoseError.medNotFound) ∧
    (∀ (db : DB) (uid : Nat) (tz : Int) (medId : Nat) (s : Slot) (now : Int) (evF : Bool),
      isOk (logDose db uid tz medId s (some DoseStatus.missed) now evF) = true ∧
      (exceptDB (logDose db uid tz medId s (some DoseStatus.missed) now evF) db).logs =
        db.logs ++ [mkRecorderEntry uid medId s (some DoseStatus.missed) tz now] ∧
      (exceptDB (logDose db uid tz medId s (some DoseStatus.missed) now evF) db).meds =
        db.meds) ∧
    (∀ (db : DB) (uid : Nat) (tz : Int) (medId : Nat) (s : Slot) (now : Int) (evF : Bool),
      isOk (logDose db uid tz medId s (some DoseStatus.skipped) now evF) = true ∧
      (exceptDB (logDose db uid tz medId s (some DoseStatus.skipped) now evF) db).logs =
        db.logs ++ [mkRecorderEntry uid medId s (some DoseStatus.skipped) tz now] ∧
      (exceptDB (logDose db uid tz medId s (some DoseStatus.skipped) now evF) db).meds =
        db.meds) ∧
    (∀ (db : DB) (uid : Nat) (tz : Int) (medId : Nat) (s : Slot) (now : Int) (evF : Bool)
      (med : Medication),
      hasRecentTakenDuplicate db.logs uid medId s now = false →
      findMedNotDeleted db.meds medId uid = some med →
      isOk (logDose db uid tz medId s (some DoseStatus.taken) now evF) = true) := by
  refine ⟨?_, ?_, ?_, ?_⟩
  · intro db uid tz medId s now evF hdup hmed
    exact logDose_taken_notFound db uid tz medId s now evF hdup hmed
  · intro db uid tz medId s now evF
    rw [logDose_missed_ok]
    exact ⟨rfl, rfl, rfl⟩
  · intro db uid tz medId s now evF
    rw [logDose_skipped_ok]
    exact ⟨rfl, rfl, rfl⟩
  · intro db uid tz medId s now evF med hdup hmed
    rw [logDose_taken_ok db uid tz medId s now evF med hdup hmed]
    rfl

/-- C4 counterexample: a missed report against a soft-deleted medication does
not fail with a state error: it succeeds and a ledger entry from that call
survives. -/
theorem missed_commits_on_deleted_med :
    medDel.isDeleted = true ∧
    isOk (logDose dbDel 1 0 1 slot8 (some DoseStatus.missed) tRec false) = true ∧
    (exceptDB (logDose dbDel 1 0 1 slot8 (some DoseStatus.missed) tRec false)
      dbDel).logs.length = 1 := by
  decide

/-- Witness for C4: the four parts at concrete stores (soft-deleted and
inactive medications). -/
theorem state_error_only_on_taken_path_witness :
    (hasRecentTakenDuplicate dbDel.logs 1 1 slot8 tRec = false ∧
      findMedNotDeleted dbDel.meds 1 1 = none ∧
      logDose dbDel 1 0 1 slot8 (some DoseStatus.taken) tRec false =
        Except.error DoseError.medNotFound) ∧
    isOk (logDose dbDel 1 0 1 slot8 (some DoseStatus.missed) tRec false) = true ∧
    isOk (logDose dbDel 1 0 1 slot8 (some DoseStatus.skipped) tRec false) = true ∧
    (medInact.isActive = false ∧
      findMedNotDeleted dbInact.meds 1 1 = some medInact ∧
      isOk (logDose dbInact 1 0 1 slot8 (some DoseStatus.taken) tRec false) = true) := by
  refine ⟨⟨by decide, by decide, ?_⟩, ?_, ?_, by decide, by decide, ?_⟩
  · exact state_error_only_on_taken_path.1 dbDel 1 0 1 slot8 tRec false
      (by decide) (by decide)
  · exact (state_error_only_on_taken_path.2.1 dbDel 1 0 1 slot8 tRec false).1
  · exact (state_error_only_on_taken_path.2.2.1 dbDel 1 0 1 slot8 tRec false).1
  · exact state_error_only_on_taken_path.2.2.2 dbInact 1 0 1 slot8 tRec false medInact
      (by decide) (by decide)

/-! ## Claim C5 -/

/-- C5 (amended): in a sweep pass, for a medication of the store (owner
resolving to u, medication ids distinct) and a slot s, a missed entry (outcome
missed, classification missed) for (medication, s) is synthesized if and only
if the medication is non-deleted AND scheduled (isActive is NOT consulted:
inactive medications are swept like active ones) AND s is one of its timings
AND now in the owner zone is strictly past the slot instant for today plus the
2-hour grace AND no ledger entry for (medication, s) exists within the owner
zone current calendar day.  Deleted or non-scheduled medications are never
swept. -/
theorem sweep_synthesizes_iff (db : DB) (now : Int) (m : Medication) (s : Slot)
    (u : User) (hm : m ∈ db.meds) (hnodup : (db.meds.map Medication.id).Nodup)
    (hu : findUser db.users m.user = some u) :
    (newLogsOf db now).any
        (fun l => decide (l.medication = m.id ∧ l.scheduledTime = s ∧
          l.status = DoseStatus.missed ∧ l.adherenceStatus = AdhStatus.missed)) = true ↔
      (m.isDeleted = false ∧ m.medType = MedType.scheduled ∧ s ∈ m.timings ∧
        slotDue u.tzOffset now s = true ∧
        hasEntryToday db.logs m.id s u.tzOffset now = false) := by
  obtain ⟨hus, hms, hev, hlogs, hcount, hsound, hcomp⟩ := runReaper_spec db now
  constructor
  · intro h
    obtain ⟨l, hl, hpred⟩ := List.any_eq_true.mp h
    obtain ⟨hlmed, hlslot, hlst, hlad⟩ := of_decide_eq_true hpred
    obtain ⟨m', hm', u', hu', s', hs', heq, hdue, hnone⟩ := hsound l hl
    unfold reaperMeds at hm'
    have hm'mem : m' ∈ db.meds := (List.mem_filter.mp hm').1
    have hmm : m' = m := by
      have hid : m'.id = m.id := by rw [← hlmed, heq]; rfl
      exact List.inj_on_of_nodup_map hnodup hm'mem hm hid
    have hss : s' = s := by rw [← hlslot, heq]; rfl
    have hfil := (List.mem_filter.mp hm').2
    rw [hmm] at hfil hu' hs' hnone
    rw [hss] at hs' hnone
    rw [hss] at hdue
    rw [hu] at hu'
    injection hu' with huu
    rw [← huu] at hnone hdue
    simp only [Bool.and_eq_true, Bool.not_eq_true', decide_eq_true_eq] at hfil
    exact ⟨hfil.1, hfil.2, hs', hdue, hnone⟩
  · rintro ⟨hdel, hsch, hs, hdue, hnone⟩
    have hmfilter : m ∈ reaperMeds db := by
      unfold reaperMeds
      rw [List.mem_filter]
      exact ⟨hm, by simp [hdel, hsch]⟩
    have hafter := hcomp m hmfilter u hu s hs hdue
    rw [hlogs, hasEntryToday_append, hnone] at hafter
    simp only [Bool.false_or] at hafter
    obtain ⟨l, hl, hpred⟩ := List.any_eq_true.mp hafter
    simp only [Bool.and_eq_true] at hpred
    obtain ⟨hp1, _⟩ := hpred
    obtain ⟨hlmed, hlslot⟩ := of_decide_eq_true hp1
    obtain ⟨m', hm', u', hu', s', hs', heq, _, _⟩ := hsound l hl
    rw [List.any_eq_true]
    refine ⟨l, hl, decide_eq_true ?_⟩
    refine ⟨hlmed, hlslot, ?_, ?_⟩
    · rw [heq]
      rfl
    · rw [heq]
      rfl

/-- C5 counterexample: an inactive (isActive false) but non-deleted scheduled
medication IS swept: a pass over it synthesizes a missed entry, refuting that
inactive medications are never swept. -/
theorem inactive_med_is_swept :
    medInact.isActive = false ∧
    (runAutomatedReaper dbInact tDue).1 = 1 ∧
    (newLogsOf dbInact tDue).any
      (fun l => decide (l.medication = 1 ∧ l.status = DoseStatus.missed)) = true := by
  decide

/-- Witness for C5: the characterization applied at a concrete store whose slot
is due and unresolved. -/
theorem sweep_synthesizes_iff_witness :
    (medRec ∈ dbRec.meds ∧ (dbRec.meds.map Medication.id).Nodup ∧
      findUser dbRec.users medRec.user = some userW) ∧
    (newLogsOf dbRec tDue).any
      (fun l => decide (l.medication = medRec.id ∧ l.scheduledTime = slot8 ∧
        l.status = DoseStatus.missed ∧ l.adherenceStatus = AdhStatus.missed)) = true :=
  ⟨⟨by decide, by decide, by decide⟩,
    (sweep_synthesizes_iff dbRec tDue medRec slot8 userW (by decide) (by decide)
      (by decide)).mpr (by decide)⟩

/-! ## Claim C7 -/

/-- With no failing medication the injected sweep equals the plain fold. -/
lemma reaperGoF_no_failures (users : List User) (now : Int) :
    ∀ (ms : List Medication) (st : Nat × List LogEntry),
      reaperGoF users now [] ms st =
        (Except.ok (ms.foldl (reaperProcessMed users now) st).1,
          (ms.foldl (reaperProcessMed users now) st).2) := by
  intro ms
  induction ms with
  | nil => intro st; rfl
  | cons m rest ih =>
    intro st
    simp only [reaperGoF, List.not_mem_nil, if_false, List.foldl_cons]
    exact ih (reaperProcessMed users now st m)

/-- C7 (amended): reaper.js wraps the whole pass in one try/catch whose catch
logs and rethrows.  With no store failure the pass returns the count of missed
entries it synthesized (equal to the number of appended entries); but a
transient failure while processing the first scanned medication aborts the
whole pass with an error and processes nothing, including every later
medication: per-medication failures are not caught, logged and skipped. -/
theorem sweep_failure_aborts_pass :
    (∀ (db : DB) (now : Int),
      runAutomatedReaperF db now [] =
        (Except.ok (runAutomatedReaper db now).1, (runAutomatedReaper db now).2)) ∧
    (∀ (db : DB) (now : Int),
      (runAutomatedReaper db now).1 = (newLogsOf db now).length) ∧
    (∀ (db : DB) (now : Int) (failMeds : List Nat) (m : Medication)
      (rest : List Medication),
      reaperMeds db = m :: rest → m.id ∈ failMeds →
      runAutomatedReaperF db now failMeds = (Except.error (), db)) := by
  refine ⟨?_, ?_, ?_⟩
  · intro db now
    unfold runAutomatedReaperF runAutomatedReaper
    rw [reaperGoF_no_failures]
  · intro db now
    exact (runReaper_spec db now).2.2.2.2.1
  · intro db now failMeds m rest hms hid
    unfold runAutomatedReaperF
    rw [hms]
    simp [reaperGoF, hid]

/-- C7 counterexample: with a transient failure on medication 1, the pass ends
in an error and medication 2 - due and unresolved - is never processed (no
entry for it exists afterwards), while the failure-free pass over the same
store synthesizes entries for both medications. -/
theorem sweep_transient_failure_skips_rest :
    isErrF (runAutomatedReaperF dbTwo tDue [1]) = true ∧
    hasEntryToday (runAutomatedReaperF dbTwo tDue [1]).2.logs 2 slot8 0 tDue = false ∧
    (runAutomatedReaper dbTwo tDue).1 = 2 ∧
    hasEntryToday (runAutomatedReaper dbTwo tDue).2.logs 2 slot8 0 tDue = true := by
  decide

/-- Witness for C7: the abort clause applied at the two-medication store. -/
theorem sweep_failure_aborts_pass_witness :
    (reaperMeds dbTwo = medTwoA :: [medTwoB] ∧ medTwoA.id ∈ [1]) ∧
    runAutomatedReaperF dbTwo tDue [1] = (Except.error (), dbTwo) :=
  ⟨⟨by decide, by decide⟩,
    sweep_failure_aborts_pass.2.2 dbTwo tDue [1] medTwoA [medTwoB]
      (by decide) (by decide)⟩

/-! ## Claim C8 -/

/-- C8: evaluating the two runway computations at the spec example (an active,
non-deleted medication with remainingQuantity 10 and three daily slots).  The
code reads med.currentInventory, a path the medication schema does not define,
so daysRemaining is NaN and every comparison against it is false, classifying
the medication Healthy; the computation written from the spec formula
floor(remainingQuantity / slots) = 3 classifies it Critical (at most 3) - not
the Low the claim asserts. -/
theorem runway_reads_nonexistent_field :
    getInventoryRunway dbThree 1 =
      [{ medicationId := 1, daysRemaining := JsVal.nan, status := "Healthy" }] ∧
    getInventoryRunwaySpec dbThree 1 =
      [{ medicationId := 1, daysRemaining := JsVal.num 3, status := "Critical" }] := by
  decide

/-! ## Claim C9 -/

/-- The spec walk never exceeds its fuel. -/
lemma streakFrom_le (logs : List LogEntry) (uid : Nat) :
    ∀ (fuel : Nat) (d : Int), streakFrom logs uid d fuel ≤ fuel := by
  intro fuel
  induction fuel with
  | zero => intro d; simp [streakFrom]
  | succ f ih =>
    intro d
    rw [streakFrom]
    by_cases h1 : (dayLogs logs uid d).isEmpty = true
    · rw [if_pos h1]
      omega
    · rw [if_neg h1]
      by_cases h2 : (dayLogs logs uid d).any
          (fun l => decide (l.status = DoseStatus.missed)) = true
      · rw [if_pos h2]
        omega
      · rw [if_neg h2]
        have := ih (d - 1440)
        omega

/-- The source loop with its post-increment cap equals the spec walk with the
matching fuel. -/
lemma reliabilityLoop_eq_streak (logs : List LogEntry) (uid : Nat) :
    ∀ (fuel : Nat) (c : Nat) (d : Int), c + fuel = 90 → 1 ≤ fuel →
      reliabilityLoop logs uid d c = c + streakFrom logs uid d fuel := by
  intro fuel
  induction fuel with
  | zero =>
    intro c d hsum hf
    exact absurd hf (by omega)
  | succ f ih =>
    intro c d hsum hf
    rw [reliabilityLoop, streakFrom]
    by_cases h1 : (dayLogs logs uid d).isEmpty = true
    · rw [if_pos h1, if_pos h1]
      omega
    · rw [if_neg h1, if_neg h1]
      by_cases h2 : (dayLogs logs uid d).any
          (fun l => decide (l.status = DoseStatus.missed)) = true
      · rw [if_pos h2, if_pos h2]
        omega
      · rw [if_neg h2, if_neg h2]
        by_cases h3 : 90 ≤ c + 1
        · have hf0 : f = 0 := by omega
          subst hf0
          rw [if_pos h3, streakFrom]
        · rw [if_neg h3, ih (c + 1) (d - 1440) (by omega) (by omega)]
          omega

/-- C9 (amended): the Reliability Index is exactly the spec walk - stop without
counting on a day with no entries, stop on a day with a missed entry, count
otherwise, hard cap 90 - but performed in the ambient server zone offset (the
subject zone is never consulted), and the answer never exceeds 90. -/
theorem reliability_index_is_server_zone_walk (logs : List LogEntry) (uid : Nat)
    (tz now : Int) :
    calculateReliabilityIndex logs uid tz now =
      streakFrom logs uid (todayStartUtc tz now) 90 ∧
    calculateReliabilityIndex logs uid tz now ≤ 90 := by
  have h := reliabilityLoop_eq_streak logs uid 90 0 (todayStartUtc tz now)
    (by omega) (by omega)
  have h2 := streakFrom_le logs uid 90 (todayStartUtc tz now)
  unfold calculateReliabilityIndex
  constructor
  · simpa using h
  · omega

/-- C9 counterexample: the walk runs in the ambient server zone, not the
subject zone.  With the server at UTC and the subject at UTC-5 (offset -300), a
taken log at 01:40 UTC of day 20000 lies in the UTC day but before the subject
local midnight, so the code answers 1 while the spec walk in the subject zone
finds the subject current day empty and answers 0. -/
theorem reliability_ignores_subject_zone :
    calculateReliabilityIndex [logT9] 1 0 t9 = 1 ∧
    streakFrom [logT9] 1 (todayStartUtc (-300) t9) 90 = 0 := by
  have h := reliabilityLoop_eq_streak [logT9] 1 90 0 (todayStartUtc 0 t9)
    (by omega) (by omega)
  constructor
  · unfold calculateReliabilityIndex
    rw [h]
    decide
  · decide

end Adherix
